import Mathlib

/-!
Shallow embedding of `.github/scripts/validate_editorconfig.py`
(class `EditorconfigValidator`) and proofs about the claims of the
specification.

Modelling conventions:
* A loaded file is a `List String` of its lines (trailing newlines already
  removed, as `load_editorconfig` does with `rstrip` of the newline).
* Python `str.strip()` is modelled by `pyStrip` over `List Char`, using the
  ASCII whitespace characters (the inputs of interest are ASCII).
* Python `str.lower()` / `str.upper()` and `re.IGNORECASE` are modelled with
  `Char.toLower` / `Char.toUpper`, which perform exactly the ASCII case
  mapping the script relies on.
* The fixed regular expressions of the script (`section_re`, `comment_re`,
  `keyval_re`, `diag_sev_re`, `naming_rule_re`, the analyzer-id token regex)
  are translated to executable functions whose semantics, including the
  backtracking behaviour of the lazy groups, is worked out in the comments at
  each definition.
* Regular expressions coming from the schema file are data, so pattern
  compilation and matching are abstracted by a `RegexOracle`:
  `oracle p = none` models `re.compile(p)` raising `re.error`, and
  `oracle p = some m` models a compiled pattern whose `.match(s)` call is
  truthy exactly when `m s = true` (Python `match` anchors at the start of
  the string but need not span all of it).
* Network traffic is data: each configured URL comes paired with a
  `FetchOutcome` describing what `urllib.request.urlopen` did for it.
* Printing is modelled by returning the list of printed lines in order.
-/

/-- ASCII whitespace, the characters stripped by Python `str.strip()` and
matched by `\s` on the ASCII inputs this tool processes. -/
def pyIsSpace (c : Char) : Bool :=
  c == ' ' || c == '\t' || c == '\n' || c == '\r' || c == '\x0b' || c == '\x0c'

/-- Remove trailing ASCII whitespace. -/
def stripEnd (l : List Char) : List Char :=
  ((l.reverse.dropWhile pyIsSpace)).reverse

/-- Python `str.strip()` on the character list of a string. -/
def pyStrip (l : List Char) : List Char :=
  stripEnd (l.dropWhile pyIsSpace)

/-- Python `str.strip()` on strings. -/
def pyStripStr (s : String) : String :=
  ⟨pyStrip s.data⟩

/-- Python `str.lower()` (ASCII scope), also used for `re.IGNORECASE`
comparisons. -/
def pyLowerStr (s : String) : String :=
  ⟨s.data.map Char.toLower⟩

/-- Python `str.upper()` (ASCII scope), used for `rule_id.upper()`. -/
def pyUpperStr (s : String) : String :=
  ⟨s.data.map Char.toUpper⟩

/-- The character class `[A-Za-z0-9_]` of the script's identifier regexes
(also Python word characters, for the ASCII inputs in scope). -/
def isWordChar (c : Char) : Bool :=
  (65 ≤ c.toNat && c.toNat ≤ 90) || (97 ≤ c.toNat && c.toNat ≤ 122) ||
    (48 ≤ c.toNat && c.toNat ≤ 57) || c == '_'

/-- The class `[A-Z]` of the analyzer-id token regex. -/
def isUpperAlpha (c : Char) : Bool :=
  65 ≤ c.toNat && c.toNat ≤ 90

/-- The class `\d` of the analyzer-id token regex. -/
def isDigitChar (c : Char) : Bool :=
  48 ≤ c.toNat && c.toNat ≤ 57

/-- Substring test on character lists (used for Python's `in` on strings and
for `re.search` of an escaped literal). -/
def containsSub (hay ndl : List Char) : Bool :=
  if ndl.isPrefixOf hay then true
  else
    match hay with
    | [] => false
    | _ :: t => containsSub t ndl

/-!
## The line classifier of `parse_and_validate` (source lines 62-94)

`section_re  = ^\s*\[(.+?)\]\s*$`  (matched against the raw line)
`comment_re  = ^\s*[#;]`           (matched against the stripped line)
`keyval_re   = ^\s*([^=]+?)\s*=\s*(.*?)\s*$` (matched against the raw line)
-/

/-- Model of `section_re.match(raw)`, returning `group(1)`.

`^\s*` must consume the maximal leading whitespace run (it can only stop at
`[`).  The lazy group `(.+?)` together with `\]\s*$` matches exactly when,
after the opening bracket, the line ends with `]` followed by whitespace
only and the bracket content is non-empty; the group is the content between
the opening bracket and that final `]` (the unique `]` whose suffix is all
whitespace). -/
def sectionMatch (l : List Char) : Option (List Char) :=
  let t := l.dropWhile pyIsSpace
  let u := stripEnd t
  if 3 ≤ u.length && u.head? == some '[' && u.getLast? == some ']' then
    some (u.drop 1).dropLast
  else
    none

/-- Model of `keyval_re.match(raw)` returning the stripped
`(group(1), group(2))` as used by the script (which strips both groups).

`([^=]+?)` cannot cross an `=`, and everything the surrounding `\s*` pieces
consume is also not `=`, so the `=` matched is the first `=` of the line and
the match succeeds exactly when at least one character precedes it (that
character may be whitespace: `\s*` backtracks to zero width and the lazy
group accepts a whitespace character).  `group(1).strip()` is then the text
before the first `=`, stripped; `group(2).strip()` is the text after it,
stripped. -/
def keyvalMatch (l : List Char) : Option (List Char × List Char) :=
  let pre := l.takeWhile (· ≠ '=')
  if pre.length = l.length then none
  else if pre.isEmpty then none
  else some (pyStrip pre, pyStrip (l.drop (pre.length + 1)))

/-- The condition of source line 75: empty after stripping, or the stripped
line starts with `#` or `;` (`comment_re.match(stripped)`). -/
def blankOrComment (raw : String) : Bool :=
  let stripped := pyStrip raw.data
  stripped.isEmpty || stripped.head? == some '#' || stripped.head? == some ';'

/-- Outcome of the per-line checks of `parse_and_validate`. -/
inductive LineClass where
  | skip : LineClass
  | sect : String → LineClass
  | entry : String → String → LineClass
  | bad : LineClass
deriving DecidableEq

/-- The classification of one raw line, in the exact order of the checks at
source lines 75-88: blank/comment first, then section header (with the
bracket content stripped, line 81), then `key = value`, else a parse
error. -/
def classify (raw : String) : LineClass :=
  if blankOrComment raw then .skip
  else
    match sectionMatch raw.data with
    | some inner => .sect ⟨pyStrip inner⟩
    | none =>
      match keyvalMatch raw.data with
      | some (k, v) => .entry ⟨k⟩ ⟨v⟩
      | none => .bad

example : classify ("[a]") = .sect ("a") := by decide
example : classify ("  key = value ") = .entry ("key") ("value") := by decide
example : classify ("# x=y") = .skip := by decide
example : classify ("not a valid line") = .bad := by decide
example : classify ("[a=b]") = .sect ("a=b") := by decide
example : classify (" = x") = .entry ("") ("x") := by decide
example : classify ("") = .skip := by decide

/-!
## Schema model and the value validator (source lines 96-193)
-/

/-- A constraint node of the loaded JSON schema: the keys the script reads
(`$ref`, `enum`, `pattern`, `type`); any of them may be absent. -/
structure Fragment where
  ref : Option String
  enum : Option (List String)
  pattern : Option String
  type : Option String
deriving DecidableEq

/-- The empty fragment `{}` (the default of the `dict.get` calls). -/
def emptyFragment : Fragment :=
  ⟨none, none, none, none⟩

/-- The parts of the loaded schema the script reads: `definitions` and
`patternProperties`, as ordered mappings. -/
structure Schema where
  definitions : List (String × Fragment)
  patternProperties : List (String × Fragment)

/-- Python `dict.get(k, {})` on an ordered mapping of fragments. -/
def lookupFrag (l : List (String × Fragment)) (k : String) : Fragment :=
  match l with
  | [] => emptyFragment
  | (a, f) :: t => if a = k then f else lookupFrag t k

/-- Abstraction of `re.compile` plus `.match` for the pattern strings stored
in the schema: `none` models `re.compile` raising `re.error`; `some m`
models a compiled pattern with `m s` the truthiness of `pattern.match(s)`
(anchored at the start of `s`, not necessarily spanning it). -/
def RegexOracle : Type :=
  String → Option (String → Bool)

/-- `ref_path.split('/')[-1]`: the part after the last `/` (the whole string
when there is no `/`). -/
def lastSegAfterSlash (l : List Char) : List Char :=
  (l.reverse.takeWhile (· ≠ '/')).reverse

/-- The `$ref` resolution step shared by `validate_value_against_schema`
(lines 153-158) and `get_validation_error_message` (lines 180-184): when the
fragment has a `$ref` starting with `#/definitions/`, the fragment is
replaced by the named entry of the definitions table (or by `{}` when the
name is absent); any other `$ref` leaves the fragment unchanged. -/
def resolveRef (s : Schema) (frag : Fragment) : Fragment :=
  match frag.ref with
  | none => frag
  | some rp =>
    if ("#/definitions/").data.isPrefixOf rp.data then
      lookupFrag s.definitions ⟨lastSegAfterSlash rp.data⟩
    else frag

/-- `validate_value_against_schema` (lines 151-176).  After `$ref`
resolution: an `enum` key checks literal membership; otherwise a `pattern`
key checks the compiled pattern against the value (an invalid pattern
returns `True`); otherwise the value is accepted (lines 172-176 return
`True` both for `type == 'string'` and for the final default). -/
def validate_value_against_schema (oracle : RegexOracle) (s : Schema)
    (val : String) (frag : Fragment) : Bool :=
  let frag2 := resolveRef s frag
  match frag2.enum with
  | some es => es.contains val
  | none =>
    match frag2.pattern with
    | some p =>
      match oracle p with
      | some m => m val
      | none => true
    | none => true

/-- Python `repr` of a string, as used by the `!r` conversions (accurate for
the strings in scope, which contain no quotes, backslashes or control
characters). -/
def pyRepr (s : String) : String :=
  "\x27" ++ s ++ "\x27"

/-- `', '.join l`. -/
def joinCommaSep (l : List String) : String :=
  match l with
  | [] => ""
  | [a] => a
  | a :: t => a ++ ", " ++ joinCommaSep t

/-- `get_validation_error_message` (lines 178-193). -/
def get_validation_error_message (s : Schema) (key val : String)
    (frag : Fragment) : String :=
  let frag2 := resolveRef s frag
  match frag2.enum with
  | some es =>
    "Invalid value \x27" ++ val ++ "\x27 for key \x27" ++ key ++
      "\x27. Allowed values: " ++ joinCommaSep (es.map pyRepr)
  | none =>
    match frag2.pattern with
    | some p =>
      "Value \x27" ++ val ++ "\x27 for key \x27" ++ key ++
        "\x27 does not match expected pattern: " ++ p
    | none => "Invalid value \x27" ++ val ++ "\x27 for key \x27" ++ key ++ "\x27"

/-- The loop body of `validate_against_patterns` (lines 132-145): patterns
are tried in the mapping's iteration order; a pattern that fails to compile
is skipped (`except re.error: continue`); the first pattern whose compiled
regex matches the key decides the outcome and ends the loop (`break`),
appending one error exactly when the value fails its fragment.  When no
pattern matches nothing is appended (lines 147-149). -/
def patternsLoop (oracle : RegexOracle) (s : Schema) (key val : String)
    (lineNum : Nat) : List (String × Fragment) → List (Nat × String)
  | [] => []
  | (p, frag) :: rest =>
    match oracle p with
    | none => patternsLoop oracle s key val lineNum rest
    | some m =>
      if m key then
        if validate_value_against_schema oracle s val frag then []
        else [(lineNum, get_validation_error_message s key val frag)]
      else patternsLoop oracle s key val lineNum rest

/-- `validate_against_patterns` (lines 127-149), returning the error
diagnostics it appends to `self.errors`. -/
def validate_against_patterns (oracle : RegexOracle) (s : Schema)
    (key val : String) (lineNum : Nat) : List (Nat × String) :=
  patternsLoop oracle s key val lineNum s.patternProperties

/-!
## `validate_key_value` (source lines 96-125) and the parse loop
-/

/-- Case-insensitive literal prefix removal: `matchLitCI pat l` returns the
remainder of `l` after a segment whose lowercase form is `pat` (the literal
patterns used with it are already lowercase). -/
def matchLitCI (pat : List Char) (l : List Char) : Option (List Char) :=
  match pat, l with
  | [], rest => some rest
  | _ :: _, [] => none
  | p :: ps, c :: cs => if c.toLower = p then matchLitCI ps cs else none

/-- Model of the `re.IGNORECASE` full match
`^<lit>([A-Za-z0-9_]+)\.severity$` shared by `diag_sev_re`
(`lit = dotnet_diagnostic.`) and `naming_rule_re`
(`lit = dotnet_naming_rule.`), returning the group.

After the fixed-width literal, the greedy `([A-Za-z0-9_]+)` takes the
maximal word-character run: shortening it by backtracking would put a word
character where `\.` must match, which never succeeds, so the match requires
exactly that run (non-empty) followed by `.severity` (case-insensitively) up
to the end of the key. -/
def idSevKeyMatch (lit : List Char) (key : String) : Option String :=
  match matchLitCI lit key.data with
  | none => none
  | some rest =>
    let rid := rest.takeWhile isWordChar
    let tl := rest.dropWhile isWordChar
    if rid.isEmpty then none
    else if tl.map Char.toLower = (".severity").data then some ⟨rid⟩
    else none

/-- `diag_sev_re.match(key)` (line 99), returning the rule id group. -/
def diagSevMatch (key : String) : Option String :=
  idSevKeyMatch (("dotnet_diagnostic.").data) key

/-- Truthiness of `naming_rule_re.match(key)` (line 117). -/
def namingRuleIsMatch (key : String) : Bool :=
  (idSevKeyMatch (("dotnet_naming_rule.").data) key).isSome

example : diagSevMatch ("dotnet_diagnostic.CA1000.severity") = some ("CA1000") := by decide
example : diagSevMatch ("DOTNET_DIAGNOSTIC.ca10_b.SEVERITY") = some ("ca10_b") := by decide
example : diagSevMatch ("dotnet_diagnostic.a.b.severity") = none := by decide
example : diagSevMatch ("dotnet_naming_rule.x.severity") = none := by decide
example : namingRuleIsMatch ("dotnet_naming_rule.x.severity") = true := by decide

/-- The diagnostic accumulators of the validator object (lines 33-38):
`parse_errors`, `errors`, `warnings` pair a line number with a message;
`used_rules` is kept as a duplicate-free list in insertion order, standing
for the Python set. -/
structure VState where
  parseErrors : List (Nat × String)
  errors : List (Nat × String)
  warnings : List (Nat × String)
  used : List String
deriving DecidableEq

/-- The freshly constructed accumulators. -/
def initState : VState :=
  ⟨[], [], [], []⟩

/-- `set.add` on the list model of a Python string set. -/
def insertSet (l : List String) (x : String) : List String :=
  if l.contains x then l else l ++ [x]

/-- The invalid-severity error message of lines 111-114. -/
def invalidSeverityMsg (val key : String) (allowed : List String) : String :=
  "Invalid severity \x27" ++ val ++ "\x27 for \x27" ++ key ++
    "\x27. Allowed: " ++ joinCommaSep (List.insertionSort (· ≤ ·) allowed)

/-- The malformed-analyzer-key warning message of lines 119-122. -/
def malformedKeyMsg (key : String) : String :=
  "Possibly malformed analyzer key: \x27" ++ key ++
    "\x27 (expected dotnet_diagnostic.<RULEID>.severity)"

/-- `validate_key_value` (lines 96-125).  A key matching `diag_sev_re`
records its uppercased rule id in the used set and is checked directly
against the severity definition's enum, case-insensitively (lines 102-114);
otherwise a key containing `dotnet` and `severity` (case-insensitively) that
is not a naming rule draws a warning (lines 116-122); in all cases the key
is also validated against the pattern properties (line 125). -/
def validate_key_value (oracle : RegexOracle) (s : Schema) (key val : String)
    (lineNum : Nat) (st : VState) : VState :=
  let st1 : VState :=
    match diagSevMatch key with
    | some rid =>
      let usedNow := insertSet st.used (pyUpperStr rid)
      let allowed := ((lookupFrag s.definitions ("severity")).enum).getD []
      if !allowed.isEmpty &&
          !(allowed.map pyLowerStr).contains (pyLowerStr val) then
        ⟨st.parseErrors,
          st.errors ++ [(lineNum, invalidSeverityMsg val key allowed)],
          st.warnings, usedNow⟩
      else
        ⟨st.parseErrors, st.errors, st.warnings, usedNow⟩
    | none =>
      if containsSub (pyLowerStr key).data (("dotnet").data) &&
          containsSub (pyLowerStr key).data (("severity").data) &&
          !namingRuleIsMatch key then
        ⟨st.parseErrors, st.errors,
          st.warnings ++ [(lineNum, malformedKeyMsg key)], st.used⟩
      else st
  ⟨st1.parseErrors,
    st1.errors ++ validate_against_patterns oracle s key val lineNum,
    st1.warnings, st1.used⟩

/-- The parse-error message of line 87. -/
def parseErrorMsg (raw : String) : String :=
  "Unrecognized line format: " ++ pyRepr (pyStripStr raw)

/-- The loop of `parse_and_validate` (lines 71-94): 1-indexed lines, a
current section that section headers update, parse errors collected (never
raised), recognized entries validated in place. -/
def parseLoop (oracle : RegexOracle) (s : Schema) :
    Nat → Option String → VState → List String → VState
  | _, _, st, [] => st
  | n, sec, st, raw :: rest =>
    match classify raw with
    | .skip => parseLoop oracle s (n + 1) sec st rest
    | .sect t => parseLoop oracle s (n + 1) (some t) st rest
    | .entry k v =>
      parseLoop oracle s (n + 1) sec (validate_key_value oracle s k v n st) rest
    | .bad =>
      parseLoop oracle s (n + 1) sec
        ⟨st.parseErrors ++ [(n, parseErrorMsg raw)], st.errors, st.warnings,
          st.used⟩ rest

/-- `parse_and_validate` (lines 62-94) over the loaded lines. -/
def parse_and_validate (oracle : RegexOracle) (s : Schema)
    (lines : List String) : VState :=
  parseLoop oracle s 1 none initState lines

/-- A ParsedEntry of the specification's Line Parser: line number, active
section, stripped key and value. -/
structure PRecord where
  lineNum : Nat
  sect : Option String
  key : String
  val : String
deriving DecidableEq

/-- The record-level view of the same loop: the entries and parse errors the
Line Parser produces, with the section header threading of lines 79-82. -/
def lineRecsFrom (n : Nat) (sec : Option String) :
    List String → List PRecord × List (Nat × String)
  | [] => ([], [])
  | raw :: rest =>
    match classify raw with
    | .skip => lineRecsFrom (n + 1) sec rest
    | .sect t => lineRecsFrom (n + 1) (some t) rest
    | .entry k v =>
      let r := lineRecsFrom (n + 1) sec rest
      (⟨n, sec, k, v⟩ :: r.1, r.2)
    | .bad =>
      let r := lineRecsFrom (n + 1) sec rest
      (r.1, (n, parseErrorMsg raw) :: r.2)

/-- The current section after the Line Parser has consumed `lines`. -/
def sectAt (sec : Option String) (lines : List String) : Option String :=
  lines.foldl
    (fun s raw =>
      match classify raw with
      | .sect t => some t
      | _ => s) sec

/-!
## `fetch_known_analyzer_ids` (source lines 195-215)
-/

/-- What `urllib.request.urlopen` did for one URL: a response with a status
and a decoded body, or any raised exception (timeout, transport error,
HTTP error, anything else — the script treats them all alike). -/
inductive FetchOutcome where
  | ok : Nat → String → FetchOutcome
  | exc : FetchOutcome
deriving DecidableEq

/-- Single pass splitting a text into its maximal word-character runs:
`cur` holds the reversed run being read. -/
def wordRunsAux : List Char → List Char → List (List Char)
  | [], cur => if cur.isEmpty then [] else [cur.reverse]
  | c :: cs, cur =>
    if isWordChar c then wordRunsAux cs (c :: cur)
    else if cur.isEmpty then wordRunsAux cs []
    else cur.reverse :: wordRunsAux cs []

/-- The maximal word-character runs of a text, in order: the only places the
`\b` boundaries of the token regex can sit. -/
def wordRuns (l : List Char) : List (List Char) :=
  wordRunsAux l []

/-- Whether a word run is an analyzer-id token, i.e. matches
`[A-Z]{1,4}\d{2,5}` entirely: `\b` forbids starting or ending a match
inside a run, and backtracking over the quantifiers cannot help because the
character after the letters must be a digit and the character after the
digits must end the run. -/
def tokenOk (run : List Char) : Bool :=
  let ls := run.takeWhile isUpperAlpha
  let ds := run.dropWhile isUpperAlpha
  1 ≤ ls.length && ls.length ≤ 4 && 2 ≤ ds.length && ds.length ≤ 5 &&
    ds.all isDigitChar

/-- `set(re.findall(r'\b[A-Z]{1,4}\d{2,5}\b', txt))`: the distinct
analyzer-id tokens of a response body. -/
def foundTokens (body : String) : List String :=
  ((wordRuns body.data).filter tokenOk).foldl
    (fun acc r => insertSet acc ⟨r⟩) []

example : foundTokens ("x CA1000, cs1 IDE0090 S123456 _CA10 CA1000") =
    [("CA1000"), ("IDE0090")] := by decide

/-- One iteration of the URL loop of `fetch_known_analyzer_ids` (lines
197-215): blank URLs are skipped; an exception or a non-200 status
contributes nothing (`continue`); a 200 body contributes its token set
(guarded by `if found:`). -/
def fetchStep (acc : List String) (uo : String × FetchOutcome) : List String :=
  if (pyStrip uo.1.data).isEmpty then acc
  else
    match uo.2 with
    | .exc => acc
    | .ok status body =>
      if status ≠ 200 then acc
      else
        let found := foundTokens body
        if found.isEmpty then acc
        else found.foldl insertSet acc

/-- `fetch_known_analyzer_ids` (lines 195-215) as a function of the paired
fetch outcomes. -/
def fetch_known_analyzer_ids (outcomes : List (String × FetchOutcome)) :
    List String :=
  outcomes.foldl fetchStep []

/-!
## `check_analyzer_ids`, `find_line_for_text`, reporting (lines 217-290)
-/

/-- Truthiness of `pattern.search(line)` for the `re.escape`d, `IGNORECASE`
pattern of `find_line_for_text`: a case-insensitive substring test. -/
def lineHasTextCI (text line : String) : Bool :=
  containsSub (pyLowerStr line).data (pyLowerStr text).data

/-- `find_line_for_text` (lines 234-240): the first 1-indexed line whose
text contains the literal `text` case-insensitively (`re.escape` plus
`re.IGNORECASE`, `pattern.search`). -/
def findLineLoop (text : String) (n : Nat) : List String → Option Nat
  | [] => none
  | l :: rest =>
    if lineHasTextCI text l then some n
    else findLineLoop text (n + 1) rest

/-- `find_line_for_text` over the loaded lines. -/
def find_line_for_text (text : String) (lines : List String) : Option Nat :=
  findLineLoop text 1 lines

/-- The search text `f"dotnet_diagnostic.{rule}.severity"` of line 226. -/
def sevKeyText (rule : String) : String :=
  ("dotnet_diagnostic.") ++ rule ++ (".severity")

/-- The unknown-rule warning message of lines 230-231. -/
def unknownRuleMsg (rule : String) : String :=
  "Referenced analyzer rule \x27" ++ rule ++
    "\x27 not found in fetched upstream lists; verify the rule ID is correct."

/-- The informational notice of line 220. -/
def noticeLine : String :=
  "::notice ::Could not fetch authoritative analyzer ID list; existence checks skipped. This is non-fatal."

/-- `check_analyzer_ids` (lines 217-232): with an empty known set it prints
the notice and returns; otherwise it walks the used rules in sorted order
and, for each rule missing from the known set, appends a warning at the
line found by re-scanning the file for the rule's severity key — when the
re-scan finds no line (`if line_num:`), nothing is appended.  Returns
(notice printed?, warnings appended). -/
def check_analyzer_ids (used known : List String) (lines : List String) :
    Bool × List (Nat × String) :=
  if known.isEmpty then (true, [])
  else
    (false,
      (List.insertionSort (· ≤ ·) used).foldl
        (fun acc rule =>
          if known.contains rule then acc
          else
            match find_line_for_text (sevKeyText rule) lines with
            | some n => acc ++ [(n, unknownRuleMsg rule)]
            | none => acc) [])

/-- `get_exit_code` (lines 258-268). -/
def get_exit_code (st : VState) (failOnUnknown : Bool) : Nat :=
  if !st.parseErrors.isEmpty || !st.errors.isEmpty then 1
  else if failOnUnknown && !st.warnings.isEmpty then 1
  else 0

/-- Annotation line for a parse error (line 248). -/
def fmtParseError (fname : String) (d : Nat × String) : String :=
  "::error file=" ++ fname ++ ",line=" ++ toString d.1 ++
    ",title=.editorconfig parse error::" ++ d.2

/-- Annotation line for a validation error (line 252). -/
def fmtError (fname : String) (d : Nat × String) : String :=
  "::error file=" ++ fname ++ ",line=" ++ toString d.1 ++
    ",title=.editorconfig error::" ++ d.2

/-- Annotation line for a warning (line 256). -/
def fmtWarning (fname : String) (d : Nat × String) : String :=
  "::warning file=" ++ fname ++ ",line=" ++ toString d.1 ++
    ",title=.editorconfig warning::" ++ d.2

/-- `emit_annotations` (lines 242-256): three print loops, parse errors
first, then validation errors, then warnings, each list in its own order. -/
def emit_diagnostics (fname : String) (st : VState) : List String :=
  let out1 := st.parseErrors.foldl (fun acc d => acc ++ [fmtParseError fname d]) []
  let out2 := st.errors.foldl (fun acc d => acc ++ [fmtError fname d]) out1
  st.warnings.foldl (fun acc d => acc ++ [fmtWarning fname d]) out2

/-- The state after `run`'s validation phase (lines 274-279): parse and
validate, and — only when any rules were seen — fetch the known ids and
cross-check them, appending the resulting warnings.  Returns the final
accumulators and whether the skip notice was printed. -/
def pipelineState (oracle : RegexOracle) (s : Schema) (lines : List String)
    (outcomes : List (String × FetchOutcome)) : VState × Bool :=
  let st := parse_and_validate oracle s lines
  if st.used.isEmpty then (st, false)
  else
    let known := fetch_known_analyzer_ids outcomes
    let cw := check_analyzer_ids st.used known lines
    (⟨st.parseErrors, st.errors, st.warnings ++ cw.2, st.used⟩, cw.1)

/-- The exit code of `run` (lines 283-290). -/
def runExitCode (oracle : RegexOracle) (s : Schema) (lines : List String)
    (outcomes : List (String × FetchOutcome)) (failOnUnknown : Bool) : Nat :=
  get_exit_code (pipelineState oracle s lines outcomes).1 failOnUnknown

/-- Everything `run` prints after loading succeeds, in order: the optional
notice from `check_analyzer_ids`, then the annotations, then the summary
line (lines 270-290). -/
def runOutput (oracle : RegexOracle) (s : Schema) (lines : List String)
    (outcomes : List (String × FetchOutcome)) (failOnUnknown : Bool)
    (fname : String) : List String :=
  let sb := pipelineState oracle s lines outcomes
  (if sb.2 then [noticeLine] else []) ++ emit_diagnostics fname sb.1 ++
    [if get_exit_code sb.1 failOnUnknown = 0 then
      ("Validator completed: no fatal issues found.")
    else ("Validator completed with errors.")]

/-!
## General lemmas about the helpers
-/

theorem foldl_appendOpt {α β : Type} (g : α → Option β) (f : List β → α → List β)
    (hf : ∀ acc x, f acc x = acc ++ (g x).toList) :
    ∀ (l : List α) (init : List β), l.foldl f init = init ++ l.filterMap g := by
  intro l
  induction l with
  | nil => intro init; simp
  | cons x t ih =>
    intro init
    simp only [List.foldl_cons, ih, hf, List.filterMap_cons]
    cases g x <;> simp

theorem mem_insertSet {l : List String} {x y : String} :
    x ∈ insertSet l y ↔ x ∈ l ∨ x = y := by
  unfold insertSet
  split
  · next h =>
    constructor
    · exact fun hx => Or.inl hx
    · rintro (hx | rfl)
      · exact hx
      · simpa using h
  · simp

theorem nodup_insertSet {l : List String} {y : String} (h : l.Nodup) :
    (insertSet l y).Nodup := by
  unfold insertSet
  split
  · exact h
  · next hc =>
    simp only [List.nodup_append, List.nodup_cons, List.nodup_nil]
    refine ⟨h, by simp, ?_⟩
    intro a ha
    simp only [List.mem_singleton]
    rintro rfl
    exact hc (by simpa using ha)

theorem containsSub_of_infix {ndl hay : List Char} (h : ndl <:+: hay) :
    containsSub hay ndl = true := by
  induction hay with
  | nil =>
    have : ndl = [] := List.eq_nil_of_infix_nil h
    subst this
    simp [containsSub]
  | cons c cs ih =>
    rcases h with ⟨s, t, hst⟩
    cases s with
    | nil =>
      have hp : ndl.isPrefixOf (c :: cs) := by
        rw [List.isPrefixOf_iff_prefix]
        exact ⟨t, by simpa using hst⟩
      unfold containsSub
      simp [hp]
    | cons a as =>
      have hin : ndl <:+: cs := by
        refine ⟨as, t, ?_⟩
        simpa using congrArg List.tail hst
      unfold containsSub
      split
      · rfl
      · exact ih hin

theorem stripEnd_prefix_self (x : List Char) : stripEnd x <+: x := by
  have h : (stripEnd x).reverse <:+ x.reverse := by
    unfold stripEnd
    rw [List.reverse_reverse]
    exact List.dropWhile_suffix pyIsSpace
  exact List.reverse_suffix.mp h

theorem pyStrip_infix_self (l : List Char) : pyStrip l <:+: l := by
  exact List.IsInfix.trans (stripEnd_prefix_self (l.dropWhile pyIsSpace)).isInfix
    (List.dropWhile_suffix pyIsSpace).isInfix

theorem pyStrip_eq_nil_iff {l : List Char} :
    pyStrip l = [] ↔ ∀ c ∈ l, pyIsSpace c = true := by
  unfold pyStrip stripEnd
  rw [List.reverse_eq_nil_iff, List.dropWhile_eq_nil_iff]
  constructor
  · intro h c hc
    by_cases hdrop : c ∈ l.dropWhile pyIsSpace
    · exact h c (by simpa using hdrop)
    · have hsplit := List.takeWhile_append_dropWhile pyIsSpace l
      rw [← hsplit] at hc
      rcases List.mem_append.mp hc with htake | hd
      · exact List.mem_takeWhile_imp htake
      · exact absurd hd hdrop
  · intro h c hc
    exact h c ((List.dropWhile_sublist pyIsSpace).subset (by simpa using hc))

theorem charToNat_ofNat_valid {n : Nat} (h : n.isValidChar) :
    (Char.ofNat n).toNat = n := by
  rw [Char.ofNat, dif_pos h]
  rfl

theorem isValidChar_of_lt_d800 {n : Nat} (h : n < 0xd800) : n.isValidChar :=
  Or.inl h

theorem toLower_toUpper (c : Char) : c.toUpper.toLower = c.toLower := by
  by_cases h : 97 ≤ c.toNat ∧ c.toNat ≤ 122
  · have hup : c.toUpper = Char.ofNat (c.toNat - 32) := by
      unfold Char.toUpper
      rw [if_pos ⟨h.1, h.2⟩]
    have hval : (c.toNat - 32).isValidChar :=
      isValidChar_of_lt_d800 (by omega)
    have hnat : (Char.ofNat (c.toNat - 32)).toNat = c.toNat - 32 :=
      charToNat_ofNat_valid hval
    have hlow : (Char.ofNat (c.toNat - 32)).toLower =
        Char.ofNat (c.toNat - 32 + 32) := by
      unfold Char.toLower
      rw [hnat, if_pos (by omega : 65 ≤ c.toNat - 32 ∧ c.toNat - 32 ≤ 90)]
    have harith : c.toNat - 32 + 32 = c.toNat := by omega
    have hrhs : c.toLower = c := by
      unfold Char.toLower
      rw [if_neg (by omega : ¬(65 ≤ c.toNat ∧ c.toNat ≤ 90))]
    rw [hup, hlow, harith, Char.ofNat_toNat, hrhs]
  · have hup : c.toUpper = c := by
      unfold Char.toUpper
      rw [if_neg h]
    rw [hup]

theorem toUpper_toUpper (c : Char) : c.toUpper.toUpper = c.toUpper := by
  by_cases h : 97 ≤ c.toNat ∧ c.toNat ≤ 122
  · have hup : c.toUpper = Char.ofNat (c.toNat - 32) := by
      unfold Char.toUpper
      rw [if_pos ⟨h.1, h.2⟩]
    have hval : (c.toNat - 32).isValidChar :=
      isValidChar_of_lt_d800 (by omega)
    have hnat : (Char.ofNat (c.toNat - 32)).toNat = c.toNat - 32 :=
      charToNat_ofNat_valid hval
    rw [hup]
    unfold Char.toUpper
    rw [hnat, if_neg (by omega : ¬(97 ≤ c.toNat - 32 ∧ c.toNat - 32 ≤ 122))]
  · have hup : c.toUpper = c := by
      unfold Char.toUpper
      rw [if_neg h]
    rw [hup, hup]

/-!
## Inversion lemmas for the classifier and the identifier regexes
-/

theorem keyvalMatch_some {l : List Char} {k v : List Char}
    (h : keyvalMatch l = some (k, v)) :
    l.takeWhile (· ≠ '=') ≠ [] ∧ k = pyStrip (l.takeWhile (· ≠ '=')) ∧
      v = pyStrip (l.drop ((l.takeWhile (· ≠ '=')).length + 1)) := by
  simp only [keyvalMatch] at h
  split at h
  · exact absurd h (by simp)
  · split at h
    · exact absurd h (by simp)
    · next hne =>
      simp only [Option.some.injEq, Prod.mk.injEq] at h
      exact ⟨by simpa using hne, h.1.symm, h.2.symm⟩

theorem classify_entry_inv {raw : String} {k v : String}
    (h : classify raw = .entry k v) :
    blankOrComment raw = false ∧ sectionMatch raw.data = none ∧
      keyvalMatch raw.data = some (k.data, v.data) := by
  unfold classify at h
  split at h
  · exact absurd h (by simp)
  · next hbc =>
    refine ⟨by simpa using hbc, ?_⟩
    revert h
    split
    · intro h
      exact absurd h (by simp)
    · next hsec =>
      split
      · next k0 v0 hkv =>
        intro h
        cases h
        exact ⟨hsec, hkv⟩
      · intro h
        exact absurd h (by simp)

theorem classify_entry_key_infix {raw : String} {k v : String}
    (h : classify raw = .entry k v) : k.data <:+: raw.data := by
  obtain ⟨-, -, hkv⟩ := classify_entry_inv h
  obtain ⟨-, hk, -⟩ := keyvalMatch_some hkv
  rw [hk]
  exact List.IsInfix.trans (pyStrip_infix_self _)
    (List.takeWhile_prefix (· ≠ '=')).isInfix

theorem matchLitCI_some {pat : List Char} :
    ∀ {l rest : List Char}, matchLitCI pat l = some rest →
      ∃ d, l = d ++ rest ∧ d.map Char.toLower = pat := by
  induction pat with
  | nil =>
    intro l rest h
    simp only [matchLitCI, Option.some.injEq] at h
    exact ⟨[], by simp [h], by simp⟩
  | cons p ps ih =>
    intro l rest h
    cases l with
    | nil => simp [matchLitCI] at h
    | cons c cs =>
      simp only [matchLitCI] at h
      split at h
      · next hc =>
        obtain ⟨d, hd, hmap⟩ := ih h
        exact ⟨c :: d, by simp [hd], by simp [hmap, hc]⟩
      · exact absurd h (by simp)

theorem idSevKeyMatch_decomp {lit : List Char} {key : String} {rid : String}
    (h : idSevKeyMatch lit key = some rid) :
    ∃ d tl, key.data = d ++ rid.data ++ tl ∧ d.map Char.toLower = lit ∧
      rid.data ≠ [] ∧ (∀ c ∈ rid.data, isWordChar c = true) ∧
      tl.map Char.toLower = (".severity").data := by
  simp only [idSevKeyMatch] at h
  split at h
  · exact absurd h (by simp)
  · next rest hrest =>
    split at h
    · exact absurd h (by simp)
    · next hne =>
      split at h
      · next htl =>
        simp only [Option.some.injEq] at h
        obtain ⟨d, hd, hmap⟩ := matchLitCI_some hrest
        refine ⟨d, rest.dropWhile isWordChar, ?_, hmap, ?_, ?_, htl⟩
        · rw [hd, ← h]
          simp only [List.append_assoc]
          congr 1
          show rest = rest.takeWhile isWordChar ++ rest.dropWhile isWordChar
          exact (List.takeWhile_append_dropWhile isWordChar rest).symm
        · rw [← h]
          simpa using hne
        · intro c hc
          rw [← h] at hc
          exact List.mem_takeWhile_imp (by simpa using hc)
      · exact absurd h (by simp)

/-!
## The re-scan of `check_analyzer_ids` always finds the rule's line
-/

theorem lower_sevKeyText_eq {key rid : String} (h : diagSevMatch key = some rid) :
    (pyLowerStr (sevKeyText (pyUpperStr rid))).data = (pyLowerStr key).data := by
  obtain ⟨d, tl, hkey, hd, -, -, htl⟩ := idSevKeyMatch_decomp h
  have hlit1 : (("dotnet_diagnostic.").data).map Char.toLower =
      ("dotnet_diagnostic.").data := by decide
  have hlit2 : ((".severity").data).map Char.toLower = (".severity").data := by
    decide
  have hmid : (rid.data.map Char.toUpper).map Char.toLower =
      rid.data.map Char.toLower := by
    rw [List.map_map]
    exact List.map_congr_left fun c _ => toLower_toUpper c
  simp only [pyLowerStr, sevKeyText, pyUpperStr, String.data_append, hkey]
  simp only [List.map_append, hmid, hlit1, hlit2, hd, htl]

theorem diag_key_line_found {raw k v rid : String}
    (hcl : classify raw = .entry k v) (hds : diagSevMatch k = some rid) :
    lineHasTextCI (sevKeyText (pyUpperStr rid)) raw = true := by
  have hinf : k.data <:+: raw.data := classify_entry_key_infix hcl
  have hlow : k.data.map Char.toLower <:+: raw.data.map Char.toLower :=
    List.IsInfix.map Char.toLower hinf
  unfold lineHasTextCI
  apply containsSub_of_infix
  rw [lower_sevKeyText_eq hds]
  exact hlow

/-!
## Provenance of the used-rule set
-/

theorem used_validate_key_value (oracle : RegexOracle) (s : Schema)
    (key val : String) (n : Nat) (st : VState) :
    (validate_key_value oracle s key val n st).used =
      match diagSevMatch key with
      | some rid => insertSet st.used (pyUpperStr rid)
      | none => st.used := by
  rcases hm : diagSevMatch key with - | rid
  · simp only [validate_key_value, hm]
    split <;> rfl
  · simp only [validate_key_value, hm]
    split <;> rfl

theorem mem_used_parseLoop {oracle : RegexOracle} {s : Schema} :
    ∀ {lines : List String} {n : Nat} {sec : Option String} {st : VState}
      {r : String}, r ∈ (parseLoop oracle s n sec st lines).used →
      r ∈ st.used ∨ ∃ raw ∈ lines, ∃ k v rid, classify raw = .entry k v ∧
        diagSevMatch k = some rid ∧ r = pyUpperStr rid := by
  intro lines
  induction lines with
  | nil =>
    intro n sec st r h
    exact Or.inl h
  | cons raw rest ih =>
    intro n sec st r h
    rw [parseLoop] at h
    cases hcl : classify raw with
    | skip =>
      rw [hcl] at h
      dsimp only at h
      rcases ih h with hst | ⟨raw2, hmem, hrest⟩
      · exact Or.inl hst
      · exact Or.inr ⟨raw2, List.mem_cons_of_mem raw hmem, hrest⟩
    | sect t =>
      rw [hcl] at h
      dsimp only at h
      rcases ih h with hst | ⟨raw2, hmem, hrest⟩
      · exact Or.inl hst
      · exact Or.inr ⟨raw2, List.mem_cons_of_mem raw hmem, hrest⟩
    | entry k v =>
      rw [hcl] at h
      dsimp only at h
      rcases ih h with hst | ⟨raw2, hmem, hrest⟩
      · rw [used_validate_key_value] at hst
        rcases hds : diagSevMatch k with - | rid
        · rw [hds] at hst
          exact Or.inl hst
        · rw [hds] at hst
          rcases mem_insertSet.mp hst with hold | hnew
          · exact Or.inl hold
          · exact Or.inr ⟨raw, List.mem_cons_self raw rest,
              k, v, rid, hcl, hds, hnew⟩
      · exact Or.inr ⟨raw2, List.mem_cons_of_mem raw hmem, hrest⟩
    | bad =>
      rw [hcl] at h
      dsimp only at h
      rcases ih h with hst | ⟨raw2, hmem, hrest⟩
      · exact Or.inl hst
      · exact Or.inr ⟨raw2, List.mem_cons_of_mem raw hmem, hrest⟩

/-!
## Lemmas about `find_line_for_text`
-/

theorem findLineLoop_isSome {text : String} :
    ∀ {lines : List String} {raw : String}, raw ∈ lines →
      lineHasTextCI text raw = true →
      ∀ n, ∃ m, findLineLoop text n lines = some m := by
  intro lines
  induction lines with
  | nil =>
    intro raw hmem _ _
    exact absurd hmem (List.not_mem_nil raw)
  | cons l rest ih =>
    intro raw hmem hraw n
    by_cases hl : lineHasTextCI text l
    · exact ⟨n, by simp [findLineLoop, hl]⟩
    · rcases List.mem_cons.mp hmem with rfl | hmem2
      · exact absurd hraw hl
      · obtain ⟨m, hm⟩ := ih hmem2 hraw (n + 1)
        exact ⟨m, by simp [findLineLoop, hl, hm]⟩

theorem findLineLoop_first {text : String} :
    ∀ {lines : List String} {n m : Nat}, findLineLoop text n lines = some m →
      n ≤ m ∧ (∃ l, lines[m - n]? = some l ∧ lineHasTextCI text l = true) ∧
        ∀ i l', i < m - n → lines[i]? = some l' →
          lineHasTextCI text l' = false := by
  intro lines
  induction lines with
  | nil =>
    intro n m h
    simp [findLineLoop] at h
  | cons l rest ih =>
    intro n m h
    rw [findLineLoop] at h
    split at h
    · next hl =>
      cases h
      refine ⟨Nat.le_refl n, ⟨l, by simp, hl⟩, ?_⟩
      intro i l' hi _
      exact absurd hi (by omega)
    · next hl =>
      obtain ⟨hle, ⟨l2, hl2, hc2⟩, hfirst⟩ := ih h
      have hlt : n < m := Nat.lt_of_succ_le hle
      have hsub : m - n = (m - (n + 1)) + 1 := by omega
      refine ⟨Nat.le_of_lt hlt, ⟨l2, ?_, hc2⟩, ?_⟩
      · rw [hsub]
        simpa using hl2
      · intro i l' hi hget
        cases i with
        | zero =>
          simp only [List.getElem?_cons_zero, Option.some.injEq] at hget
          rw [← hget]
          simpa using hl
        | succ j =>
          have hj : j < m - (n + 1) := by omega
          exact hfirst j l' hj (by simpa using hget)

/-!
## Membership in the warnings of `check_analyzer_ids`
-/

/-- The per-rule contribution of the loop of `check_analyzer_ids`. -/
def checkRuleOpt (known lines : List String) (rule : String) :
    Option (Nat × String) :=
  if known.contains rule then none
  else (find_line_for_text (sevKeyText rule) lines).map
    fun n => (n, unknownRuleMsg rule)

theorem check_snd_eq_filterMap {used known lines : List String}
    (hk : known.isEmpty = false) :
    (check_analyzer_ids used known lines).2 =
      (List.insertionSort (· ≤ ·) used).filterMap (checkRuleOpt known lines) := by
  unfold check_analyzer_ids
  rw [if_neg (by simp [hk])]
  exact foldl_appendOpt (checkRuleOpt known lines) _
    (fun acc x => by
      unfold checkRuleOpt
      split
      · simp
      · cases find_line_for_text (sevKeyText x) lines <;> simp) _ []

theorem mem_check_warnings {used known lines : List String} {r : String}
    {n : Nat} (hk : known.isEmpty = false) (hr : r ∈ used) (hnot : r ∉ known)
    (hfind : find_line_for_text (sevKeyText r) lines = some n) :
    (n, unknownRuleMsg r) ∈ (check_analyzer_ids used known lines).2 := by
  rw [check_snd_eq_filterMap hk]
  refine List.mem_filterMap.mpr ⟨r, ?_, ?_⟩
  · exact (List.perm_insertionSort (· ≤ ·) used).mem_iff.mpr hr
  · unfold checkRuleOpt
    rw [if_neg (by simpa using hnot), hfind]
    rfl

/-- Claim C1: in any run whose fetched known-identifier set is non-empty,
every used rule identifier absent from that set draws a warning diagnostic
attached to the first line of the file whose text case-insensitively
contains `dotnet_diagnostic.<RULE>.severity`; such a line always exists
(the rule was discovered by parsing that same text, so the line-1 fallback
case of the claim is vacuous and the warning is never dropped). -/
theorem C1_unknown_rule_warning_emitted
    (oracle : RegexOracle) (s : Schema) (lines : List String)
    (outcomes : List (String × FetchOutcome)) (r : String)
    (hknown : (fetch_known_analyzer_ids outcomes).isEmpty = false)
    (hused : r ∈ (parse_and_validate oracle s lines).used)
    (hmiss : r ∉ fetch_known_analyzer_ids outcomes) :
    ∃ n, find_line_for_text (sevKeyText r) lines = some n ∧
      (∃ l, lines[n - 1]? = some l ∧ lineHasTextCI (sevKeyText r) l = true) ∧
      (∀ i l', i < n - 1 → lines[i]? = some l' →
        lineHasTextCI (sevKeyText r) l' = false) ∧
      (n, unknownRuleMsg r) ∈ (pipelineState oracle s lines outcomes).1.warnings := by
  have hprov := @mem_used_parseLoop oracle s lines 1 none initState r hused
  rcases hprov with hinit | ⟨raw, hmem, k, v, rid, hcl, hds, hrid⟩
  · exact absurd hinit (by simp [initState])
  · have hline : lineHasTextCI (sevKeyText r) raw = true := by
      rw [hrid]
      exact diag_key_line_found hcl hds
    obtain ⟨m, hm⟩ := findLineLoop_isSome hmem hline 1
    obtain ⟨hle, hat, hfirst⟩ := findLineLoop_first hm
    have hfind : find_line_for_text (sevKeyText r) lines = some m := hm
    have hne : (parse_and_validate oracle s lines).used.isEmpty = false := by
      cases hcase : (parse_and_validate oracle s lines).used with
      | nil =>
        rw [hcase] at hused
        exact absurd hused (List.not_mem_nil r)
      | cons a t => rfl
    refine ⟨m, hfind, ?_, ?_, ?_⟩
    · simpa using hat
    · intro i l' hi hget
      exact hfirst i l' (by omega) hget
    · simp only [pipelineState, hne, Bool.false_eq_true, if_false]
      exact List.mem_append_right _
        (mem_check_warnings hknown hused hmiss hfind)

/-- Witness for C1 at a concrete run: the file uses rule `CA9999` (twice,
in mixed case), the fetched body only knows `CA1000`, and the warning is
attached to line 2, the first line containing the severity key. -/
theorem C1_unknown_rule_warning_emitted_witness :
    (2, unknownRuleMsg ("CA9999")) ∈
      (pipelineState (fun _ => none) ⟨[], []⟩
        [("[*.cs]"), ("dotnet_diagnostic.ca9999.severity = warning"),
          ("dotnet_diagnostic.CA9999.severity = error")]
        [(("u"), .ok 200 ("CA1000 CS0168"))]).1.warnings := by
  obtain ⟨n, hfind, -, -, hmem⟩ := C1_unknown_rule_warning_emitted
    (fun _ => none) ⟨[], []⟩
    [("[*.cs]"), ("dotnet_diagnostic.ca9999.severity = warning"),
      ("dotnet_diagnostic.CA9999.severity = error")]
    [(("u"), .ok 200 ("CA1000 CS0168"))] ("CA9999")
    (by decide) (by decide) (by decide)
  have hn : n = 2 := by
    have : find_line_for_text (sevKeyText ("CA9999"))
        [("[*.cs]"), ("dotnet_diagnostic.ca9999.severity = warning"),
          ("dotnet_diagnostic.CA9999.severity = error")] = some 2 := by decide
    rw [this] at hfind
    exact (Option.some.injEq _ _ ▸ hfind.symm)
  rw [← hn]
  exact hmem

/-!
## Claim C3: the exit status
-/

theorem get_exit_code_iff (st : VState) (flag : Bool) :
    (get_exit_code st flag = 1 ↔
      (st.parseErrors ≠ [] ∨ st.errors ≠ [] ∨
        (flag = true ∧ st.warnings ≠ []))) ∧
    (get_exit_code st flag = 0 ↔
      ¬(st.parseErrors ≠ [] ∨ st.errors ≠ [] ∨
        (flag = true ∧ st.warnings ≠ []))) := by
  unfold get_exit_code
  cases hpe : st.parseErrors.isEmpty <;> cases her : st.errors.isEmpty <;>
    cases hw : st.warnings.isEmpty <;> cases flag <;> simp_all

/-- Claim C3: for every run that reaches the reporting stage, the exit
status is 1 iff a parse error or validation error was accumulated, or the
escalation flag is on and a warning was accumulated; in every other case it
is 0 (`get_exit_code`, lines 258-268). -/
theorem C3_exit_status (oracle : RegexOracle) (s : Schema) (lines : List String)
    (outcomes : List (String × FetchOutcome)) (flag : Bool) :
    (runExitCode oracle s lines outcomes flag = 1 ↔
      ((pipelineState oracle s lines outcomes).1.parseErrors ≠ [] ∨
        (pipelineState oracle s lines outcomes).1.errors ≠ [] ∨
        (flag = true ∧ (pipelineState oracle s lines outcomes).1.warnings ≠ []))) ∧
    (runExitCode oracle s lines outcomes flag = 0 ↔
      ¬((pipelineState oracle s lines outcomes).1.parseErrors ≠ [] ∨
        (pipelineState oracle s lines outcomes).1.errors ≠ [] ∨
        (flag = true ∧ (pipelineState oracle s lines outcomes).1.warnings ≠ []))) :=
  get_exit_code_iff (pipelineState oracle s lines outcomes).1 flag

/-!
## Claim C8: output structure and ordering
-/

theorem foldl_append_map {α β : Type} (f : α → β) :
    ∀ (l : List α) (init : List β),
      l.foldl (fun acc x => acc ++ [f x]) init = init ++ l.map f := by
  intro l
  induction l with
  | nil => intro init; simp
  | cons x t ih =>
    intro init
    simp only [List.foldl_cons, ih, List.map_cons]
    simp

/-- Claim C8: everything the reporting stage prints, in order — the optional
skip notice, then every parse error, then every validation error, then
every warning (each list in its accumulation order), then the summary line.
Diagnostics are printed only from the final accumulators of the already
finished parse/validate/check phases, and the output is a pure function of
the inputs, hence byte-identical across runs on unchanged input. -/
theorem C8_output_order (oracle : RegexOracle) (s : Schema)
    (lines : List String) (outcomes : List (String × FetchOutcome))
    (flag : Bool) (fname : String) :
    runOutput oracle s lines outcomes flag fname =
      (if (pipelineState oracle s lines outcomes).2 then [noticeLine] else []) ++
        (pipelineState oracle s lines outcomes).1.parseErrors.map (fmtParseError fname) ++
        (pipelineState oracle s lines outcomes).1.errors.map (fmtError fname) ++
        (pipelineState oracle s lines outcomes).1.warnings.map (fmtWarning fname) ++
        [if runExitCode oracle s lines outcomes flag = 0 then
          ("Validator completed: no fatal issues found.")
        else ("Validator completed with errors.")] := by
  simp only [runOutput, emit_diagnostics, runExitCode]
  rw [foldl_append_map, foldl_append_map, foldl_append_map]
  simp [List.append_assoc]

/-!
## Claim C2: severity acceptance through the Value Validator
-/

/-- Counterexample to claim C2: with the shared `severity` definition being
the enum of the six severity names, the value `Warning` — whose
case-insensitive form `warning` is in the vocabulary — is rejected by the
Value Validator, because the enum check of line 162 (`val in
schema['enum']`) is case-sensitive. -/
theorem C2_counterexample :
    (((["none", "silent", "suggestion", "warning", "error", "default"]).map
        pyLowerStr).contains (pyLowerStr ("Warning")) = true) ∧
    validate_value_against_schema (fun _ => none)
      ⟨[(("severity"),
          ⟨none, some ["none", "silent", "suggestion", "warning", "error",
            "default"], none, none⟩)], []⟩
      ("Warning")
      ⟨some ("#/definitions/severity"), none, none, none⟩ = false := by
  constructor
  · decide
  · decide

/-- Claim C2 (amended): when a fragment is a `$ref` to the shared `severity`
definition and that definition carries an enum, the Value Validator accepts
a value iff it is literally (case-sensitively) one of the enum entries;
case-insensitive acceptance of severities happens only in the separate
direct check of `validate_key_value`. -/
theorem C2_amended_severity_case_sensitive (oracle : RegexOracle) (s : Schema)
    (val : String) (E : List String)
    (hdef : (lookupFrag s.definitions ("severity")).enum = some E) :
    validate_value_against_schema oracle s val
      ⟨some ("#/definitions/severity"), none, none, none⟩ = E.contains val := by
  unfold validate_value_against_schema resolveRef
  have hpre : (("#/definitions/").data).isPrefixOf
      (("#/definitions/severity").data) = true := by decide
  have hseg : (⟨lastSegAfterSlash (("#/definitions/severity").data)⟩ : String) =
      ("severity") := by decide
  simp only [hpre, if_true, hseg, hdef]

/-- Witness for the amended C2 at a concrete schema: `warning` is accepted,
`Warning` is not. -/
theorem C2_amended_severity_case_sensitive_witness :
    validate_value_against_schema (fun _ => none)
        ⟨[(("severity"),
            ⟨none, some ["none", "silent", "suggestion", "warning", "error",
              "default"], none, none⟩)], []⟩
        ("warning")
        ⟨some ("#/definitions/severity"), none, none, none⟩ = true ∧
    validate_value_against_schema (fun _ => none)
        ⟨[(("severity"),
            ⟨none, some ["none", "silent", "suggestion", "warning", "error",
              "default"], none, none⟩)], []⟩
        ("Warning")
        ⟨some ("#/definitions/severity"), none, none, none⟩ = false := by
  constructor
  · rw [C2_amended_severity_case_sensitive (fun _ => none) _ _
      ["none", "silent", "suggestion", "warning", "error", "default"]
      (by decide)]
    decide
  · rw [C2_amended_severity_case_sensitive (fun _ => none) _ _
      ["none", "silent", "suggestion", "warning", "error", "default"]
      (by decide)]
    decide

/-!
## Claim C5: non-emptiness of accepted keys
-/

/-- Counterexample to claim C5: the line `" = x"` is accepted as a
`key = value` entry (the lazy key group backtracks onto the whitespace
character before `=`), and its extracted key is the empty string. -/
theorem C5_counterexample :
    classify (" = x") = .entry ("") ("x") ∧ (("") : String).data = [] := by
  constructor
  · decide
  · decide

/-- Claim C5 (amended): every line accepted as a `key = value` entry has at
least one character before its first `=`, and the extracted (trimmed) key
is empty exactly when all those characters are whitespace — so the key is
non-empty after trimming except for lines whose text before the first `=`
is non-empty pure whitespace. -/
theorem C5_amended_key_shape (raw k v : String)
    (h : classify raw = .entry k v) :
    raw.data.takeWhile (· ≠ '=') ≠ [] ∧
      (k.data = [] ↔ ∀ c ∈ raw.data.takeWhile (· ≠ '='), pyIsSpace c = true) := by
  obtain ⟨-, -, hkv⟩ := classify_entry_inv h
  obtain ⟨hne, hk, -⟩ := keyvalMatch_some hkv
  refine ⟨hne, ?_⟩
  rw [hk]
  exact pyStrip_eq_nil_iff

/-- Witness for the amended C5 at the two concrete lines `" = x"` (blank
key) and `"a = b"` (non-blank key). -/
theorem C5_amended_key_shape_witness :
    ((" = x") : String).data.takeWhile (· ≠ '=') ≠ [] ∧
      ((("") : String).data = [] ↔
        ∀ c ∈ ((" = x") : String).data.takeWhile (· ≠ '='),
          pyIsSpace c = true) := by
  exact C5_amended_key_shape (" = x") ("") ("x") (by decide)

/-!
## Claim C9: unresolved references
-/

/-- Counterexample to claim C9: a fragment whose `$ref` is not of the
`#/definitions/` form is left in place (lines 156-158 only rewrite
`#/definitions/...` references), so a sibling inline `enum` still applies
and the value `b` is rejected — the fragment is not treated as an
always-pass `any` constraint. -/
theorem C9_counterexample :
    validate_value_against_schema (fun _ => none) ⟨[], []⟩ ("b")
      ⟨some ("http://elsewhere"), some [("a")], none, none⟩ = false := by
  decide

/-- Claim C9 (amended): an unresolved `$ref` of the `#/definitions/<name>`
form replaces the fragment by the empty one, so every value is accepted and
nothing is raised; a `$ref` not of that form leaves the fragment unchanged,
so every value is accepted when the fragment carries no inline `enum` and
no inline `pattern`, while a sibling inline `enum` remains in force. -/
theorem C9_amended_unresolved_ref (oracle : RegexOracle) (s : Schema)
    (val : String) (frag : Fragment) (rp : String) (h : frag.ref = some rp) :
    ((("#/definitions/").data.isPrefixOf rp.data = true →
      lookupFrag s.definitions ⟨lastSegAfterSlash rp.data⟩ = emptyFragment →
      validate_value_against_schema oracle s val frag = true) ∧
    (("#/definitions/").data.isPrefixOf rp.data = false →
      frag.enum = none → frag.pattern = none →
      validate_value_against_schema oracle s val frag = true) ∧
    (∀ es, ("#/definitions/").data.isPrefixOf rp.data = false →
      frag.enum = some es →
      validate_value_against_schema oracle s val frag = es.contains val)) := by
  refine ⟨?_, ?_, ?_⟩
  · intro hpre hmiss
    unfold validate_value_against_schema resolveRef
    rw [h]
    simp only [hpre, if_true, hmiss, emptyFragment]
  · intro hpre henum hpat
    unfold validate_value_against_schema resolveRef
    rw [h]
    simp only [hpre, Bool.false_eq_true, if_false, henum, hpat]
  · intro es hpre henum
    unfold validate_value_against_schema resolveRef
    rw [h]
    simp only [hpre, Bool.false_eq_true, if_false, henum]

/-- Witness for the amended C9 at concrete fragments: a dangling
`#/definitions/missing` reference accepts `anything`; a bare foreign
reference accepts `anything`; a foreign reference with a sibling enum
checks the enum. -/
theorem C9_amended_unresolved_ref_witness :
    (validate_value_against_schema (fun _ => none) ⟨[], []⟩ ("anything")
      ⟨some ("#/definitions/missing"), none, none, none⟩ = true) ∧
    (validate_value_against_schema (fun _ => none) ⟨[], []⟩ ("anything")
      ⟨some ("http://elsewhere"), none, none, none⟩ = true) ∧
    (validate_value_against_schema (fun _ => none) ⟨[], []⟩ ("b")
      ⟨some ("http://elsewhere"), some [("a")], none, none⟩ =
        ([("a")]).contains ("b")) := by
  refine ⟨?_, ?_, ?_⟩
  · exact (C9_amended_unresolved_ref (fun _ => none) ⟨[], []⟩ ("anything")
      ⟨some ("#/definitions/missing"), none, none, none⟩
      ("#/definitions/missing") rfl).1 (by decide) (by decide)
  · exact (C9_amended_unresolved_ref (fun _ => none) ⟨[], []⟩ ("anything")
      ⟨some ("http://elsewhere"), none, none, none⟩
      ("http://elsewhere") rfl).2.1 (by decide) rfl rfl
  · exact (C9_amended_unresolved_ref (fun _ => none) ⟨[], []⟩ ("b")
      ⟨some ("http://elsewhere"), some [("a")], none, none⟩
      ("http://elsewhere") rfl).2.2 [("a")] (by decide) rfl

/-!
## Claim C6: pattern property matching
-/

theorem patternsLoop_no_match {oracle : RegexOracle} {s : Schema}
    {key val : String} {n : Nat} :
    ∀ {props : List (String × Fragment)},
      (∀ pf ∈ props, ∀ m, oracle pf.1 = some m → m key = false) →
      patternsLoop oracle s key val n props = [] := by
  intro props
  induction props with
  | nil => intro _; rfl
  | cons pf rest ih =>
    intro h
    obtain ⟨p, frag⟩ := pf
    rw [patternsLoop]
    cases ho : oracle p with
    | none => exact ih fun q hq => h q (List.mem_cons_of_mem _ hq)
    | some m =>
      have hm : m key = false :=
        h (p, frag) (List.mem_cons_self _ _) m ho
      simp only [hm, Bool.false_eq_true, if_false]
      exact ih fun q hq => h q (List.mem_cons_of_mem _ hq)

/-- Claim C6: the Schema Matcher tries `patternProperties` in iteration
order; a pattern that fails to compile is skipped without raising; the
first pattern whose compiled regex matches the key (`re.match`, anchored at
the start per the `RegexOracle` reading) alone decides the produced
diagnostics, the remaining patterns being ignored; and when no pattern
matches, no diagnostic is produced. -/
theorem C6_first_pattern_wins (oracle : RegexOracle) (s : Schema)
    (key val : String) (n : Nat) :
    (∀ p frag rest, oracle p = none →
      patternsLoop oracle s key val n ((p, frag) :: rest) =
        patternsLoop oracle s key val n rest) ∧
    (∀ p frag rest m, oracle p = some m → m key = false →
      patternsLoop oracle s key val n ((p, frag) :: rest) =
        patternsLoop oracle s key val n rest) ∧
    (∀ p frag rest m, oracle p = some m → m key = true →
      patternsLoop oracle s key val n ((p, frag) :: rest) =
        (if validate_value_against_schema oracle s val frag then []
        else [(n, get_validation_error_message s key val frag)])) ∧
    ((∀ pf ∈ s.patternProperties, ∀ m, oracle pf.1 = some m → m key = false) →
      validate_against_patterns oracle s key val n = []) := by
  refine ⟨?_, ?_, ?_, ?_⟩
  · intro p frag rest ho
    rw [patternsLoop, ho]
  · intro p frag rest m ho hm
    rw [patternsLoop, ho]
    simp only [hm, Bool.false_eq_true, if_false]
  · intro p frag rest m ho hm
    rw [patternsLoop, ho]
    simp only [hm, if_true]
  · intro h
    exact patternsLoop_no_match h

/-- Witness for C6 with concrete schemas: on a three-pattern list the first
pattern fails to compile and is skipped, the second matches the key and its
fragment rejects the value, the third is never consulted; and a key matched
by no pattern draws no diagnostic. -/
theorem C6_first_pattern_wins_witness :
    (patternsLoop
        (fun p => if p = ("(") then none
          else if p = ("dot") then some (fun k => k == ("dotkey"))
          else some (fun _ => true))
        ⟨[], []⟩ ("dotkey") ("v") 7
        [(("("), ⟨none, some [("x")], none, none⟩),
          (("dot"), ⟨none, some [("w")], none, none⟩),
          (("z"), ⟨none, none, none, none⟩)] =
      [(7, get_validation_error_message ⟨[], []⟩ ("dotkey") ("v")
        ⟨none, some [("w")], none, none⟩)]) ∧
    validate_against_patterns
        (fun p => if p = ("(") then none else some (fun k => k == ("dotkey")))
        ⟨[], [(("("), ⟨none, some [("x")], none, none⟩),
          (("q"), ⟨none, some [("x")], none, none⟩)]⟩
        ("otherkey") ("v") 7 = [] := by
  constructor
  · rw [(C6_first_pattern_wins
      (fun p => if p = ("(") then none
        else if p = ("dot") then some (fun k => k == ("dotkey"))
        else some (fun _ => true))
      ⟨[], []⟩ ("dotkey") ("v") 7).1 ("(")
      ⟨none, some [("x")], none, none⟩ _ rfl]
    rw [(C6_first_pattern_wins
      (fun p => if p = ("(") then none
        else if p = ("dot") then some (fun k => k == ("dotkey"))
        else some (fun _ => true))
      ⟨[], []⟩ ("dotkey") ("v") 7).2.2.1 ("dot")
      ⟨none, some [("w")], none, none⟩ _ (fun k => k == ("dotkey")) rfl rfl]
    rfl
  · refine (C6_first_pattern_wins
      (fun p => if p = ("(") then none else some (fun k => k == ("dotkey")))
      ⟨[], [(("("), ⟨none, some [("x")], none, none⟩),
        (("q"), ⟨none, some [("x")], none, none⟩)]⟩
      ("otherkey") ("v") 7).2.2.2 ?_
    intro pf hpf m hm
    simp only [List.mem_cons, List.not_mem_nil, or_false] at hpf
    rcases hpf with rfl | rfl
    · rw [if_pos rfl] at hm
      exact Option.noConfusion hm
    · rw [if_neg (by decide)] at hm
      cases hm
      rfl

/-!
## Claim C7: fetch failures are harmless
-/

/-- A fetch that contributes nothing per the script: any raised exception,
or a response whose status is not 200. -/
def badOutcome : FetchOutcome → Prop
  | .exc => True
  | .ok status _ => status ≠ 200

theorem fetchStep_bad {acc : List String} {u : String} {o : FetchOutcome}
    (h : badOutcome o) : fetchStep acc (u, o) = acc := by
  unfold fetchStep
  split
  · rfl
  · cases o with
    | exc => rfl
    | ok status body =>
      have hs : status ≠ 200 := h
      dsimp only
      rw [if_pos hs]

theorem fetch_foldl_all_bad :
    ∀ {outcomes : List (String × FetchOutcome)} {acc : List String},
      (∀ uo ∈ outcomes, badOutcome uo.2) →
      outcomes.foldl fetchStep acc = acc := by
  intro outcomes
  induction outcomes with
  | nil => intro acc _; rfl
  | cons uo rest ih =>
    intro acc h
    obtain ⟨u, o⟩ := uo
    rw [List.foldl_cons, fetchStep_bad (h (u, o) (List.mem_cons_self _ _))]
    exact ih fun q hq => h q (List.mem_cons_of_mem _ hq)

/-- Claim C7: a non-200 response or any exception contributes nothing to
the known set and never aborts the fetch loop; with no URLs or only failing
ones the known set is empty, in which case the cross-check is skipped with
the non-fatal notice and adds no warning, and a run whose parse phase
produced no diagnostics exits 0 regardless of the escalation flag. -/
theorem C7_network_failures_nonfatal :
    (∀ pre post u o, badOutcome o →
      fetch_known_analyzer_ids (pre ++ (u, o) :: post) =
        fetch_known_analyzer_ids (pre ++ post)) ∧
    fetch_known_analyzer_ids [] = [] ∧
    (∀ outcomes, (∀ uo ∈ outcomes, badOutcome uo.2) →
      fetch_known_analyzer_ids outcomes = []) ∧
    (∀ used lines, check_analyzer_ids used [] lines = (true, [])) ∧
    (∀ oracle s lines outcomes flag,
      fetch_known_analyzer_ids outcomes = [] →
      (parse_and_validate oracle s lines).parseErrors = [] →
      (parse_and_validate oracle s lines).errors = [] →
      (parse_and_validate oracle s lines).warnings = [] →
      runExitCode oracle s lines outcomes flag = 0) := by
  refine ⟨?_, rfl, ?_, ?_, ?_⟩
  · intro pre post u o hbad
    unfold fetch_known_analyzer_ids
    rw [List.foldl_append, List.foldl_append, List.foldl_cons,
      fetchStep_bad hbad]
  · intro outcomes h
    exact fetch_foldl_all_bad h
  · intro used lines
    rfl
  · intro oracle s lines outcomes flag hfetch hpe her hw
    unfold runExitCode pipelineState
    cases hused : (parse_and_validate oracle s lines).used.isEmpty with
    | true =>
      simp only [hused, if_true]
      unfold get_exit_code
      rw [hpe, her, hw]
      cases flag <;> rfl
    | false =>
      simp only [hused, Bool.false_eq_true, if_false, hfetch]
      rw [show ∀ used2, check_analyzer_ids used2 ([] : List String) lines =
        (true, []) from fun _ => rfl]
      unfold get_exit_code
      simp only [hpe, her, hw, List.append_nil]
      cases flag <;> rfl

/-- Witness for C7 at concrete data: dropping a 500 response and an
exception from a URL list leaves the fetched set unchanged; an all-failing
list yields the empty set; the check is then skipped; and a clean file with
only failing fetches exits 0 with the escalation flag on. -/
theorem C7_network_failures_nonfatal_witness :
    (fetch_known_analyzer_ids
        [(("u1"), .ok 200 ("CA1000")), (("u2"), .ok 500 ("CA2000")),
          (("u3"), .exc)] =
      fetch_known_analyzer_ids [(("u1"), .ok 200 ("CA1000"))]) ∧
    fetch_known_analyzer_ids [(("u2"), .ok 500 ("CA2000")), (("u3"), .exc)] =
      [] ∧
    check_analyzer_ids [("CA1000")] [] [("x = y")] = (true, []) ∧
    runExitCode (fun _ => none) ⟨[], []⟩
      [("dotnet_diagnostic.CA1000.severity = warning")]
      [(("u2"), .ok 500 ("CA2000")), (("u3"), .exc)] true = 0 := by
  refine ⟨?_, ?_, ?_, ?_⟩
  · have h1 := C7_network_failures_nonfatal.1
      [(("u1"), .ok 200 ("CA1000")), (("u2"), .ok 500 ("CA2000"))] []
      ("u3") .exc trivial
    have h2 := C7_network_failures_nonfatal.1
      [(("u1"), .ok 200 ("CA1000"))] [] ("u2") (.ok 500 ("CA2000"))
      (by simp [badOutcome])
    simpa using h1.trans h2
  · exact C7_network_failures_nonfatal.2.2.1
      [(("u2"), .ok 500 ("CA2000")), (("u3"), .exc)]
      (by
        intro uo huo
        simp only [List.mem_cons, List.not_mem_nil, or_false] at huo
        rcases huo with rfl | rfl
        · simp [badOutcome]
        · trivial)
  · exact C7_network_failures_nonfatal.2.2.2.1 [("CA1000")] [("x = y")]
  · refine C7_network_failures_nonfatal.2.2.2.2 (fun _ => none) ⟨[], []⟩
      [("dotnet_diagnostic.CA1000.severity = warning")]
      [(("u2"), .ok 500 ("CA2000")), (("u3"), .exc)] true ?_ ?_ ?_ ?_
    · exact C7_network_failures_nonfatal.2.2.1
        [(("u2"), .ok 500 ("CA2000")), (("u3"), .exc)]
        (by
          intro uo huo
          simp only [List.mem_cons, List.not_mem_nil, or_false] at huo
          rcases huo with rfl | rfl
          · simp [badOutcome]
          · trivial)
    · decide
    · decide
    · decide

/-!
## Claim C4: total classification in order, and error isolation
-/

theorem sectAt_cons (sec : Option String) (raw : String) (rest : List String) :
    sectAt sec (raw :: rest) =
      sectAt
        (match classify raw with
        | .sect t => some t
        | _ => sec) rest := rfl

theorem lineRecsFrom_append :
    ∀ (pre post : List String) (n : Nat) (sec : Option String),
      lineRecsFrom n sec (pre ++ post) =
        ((lineRecsFrom n sec pre).1 ++
          (lineRecsFrom (n + pre.length) (sectAt sec pre) post).1,
        (lineRecsFrom n sec pre).2 ++
          (lineRecsFrom (n + pre.length) (sectAt sec pre) post).2) := by
  intro pre
  induction pre with
  | nil =>
    intro post n sec
    simp [lineRecsFrom, sectAt]
  | cons raw rest ih =>
    intro post n sec
    have e : n + (rest.length + 1) = (n + 1) + rest.length := by omega
    rw [List.cons_append, lineRecsFrom, lineRecsFrom, sectAt_cons]
    cases hcl : classify raw with
    | skip =>
      dsimp only [List.length_cons]
      rw [e, ih]
    | sect t =>
      dsimp only [List.length_cons]
      rw [e, ih]
    | entry k v =>
      dsimp only [List.length_cons]
      rw [e, ih]
      simp [List.cons_append]
    | bad =>
      dsimp only [List.length_cons]
      rw [e, ih]
      simp [List.cons_append]

theorem parseLoop_append (oracle : RegexOracle) (s : Schema) :
    ∀ (pre post : List String) (n : Nat) (sec : Option String) (st : VState),
      parseLoop oracle s n sec st (pre ++ post) =
        parseLoop oracle s (n + pre.length) (sectAt sec pre)
          (parseLoop oracle s n sec st pre) post := by
  intro pre
  induction pre with
  | nil =>
    intro post n sec st
    simp [parseLoop, sectAt]
  | cons raw rest ih =>
    intro post n sec st
    have e : n + (rest.length + 1) = (n + 1) + rest.length := by omega
    rw [List.cons_append, parseLoop, parseLoop, sectAt_cons]
    cases hcl : classify raw with
    | skip =>
      dsimp only [List.length_cons]
      rw [e, ih]
    | sect t =>
      dsimp only [List.length_cons]
      rw [e, ih]
    | entry k v =>
      dsimp only [List.length_cons]
      rw [e, ih]
    | bad =>
      dsimp only [List.length_cons]
      rw [e, ih]

/-- Claim C4: the parser is total — every line falls into exactly one of the
four classes, tested in the order blank/comment, section header, key=value,
parse error — and processing decomposes over any split of the line list, so
a parse error (or anything else) on one line never prevents the parsing and
validation of subsequent lines. -/
theorem C4_parser_order_and_isolation (oracle : RegexOracle) (s : Schema) :
    (∀ pre post n sec,
      lineRecsFrom n sec (pre ++ post) =
        ((lineRecsFrom n sec pre).1 ++
          (lineRecsFrom (n + pre.length) (sectAt sec pre) post).1,
        (lineRecsFrom n sec pre).2 ++
          (lineRecsFrom (n + pre.length) (sectAt sec pre) post).2)) ∧
    (∀ pre post n sec st,
      parseLoop oracle s n sec st (pre ++ post) =
        parseLoop oracle s (n + pre.length) (sectAt sec pre)
          (parseLoop oracle s n sec st pre) post) ∧
    (∀ raw, blankOrComment raw = true → classify raw = .skip) ∧
    (∀ raw t, blankOrComment raw = false → sectionMatch raw.data = some t →
      classify raw = .sect ⟨pyStrip t⟩) ∧
    (∀ raw kd vd, blankOrComment raw = false → sectionMatch raw.data = none →
      keyvalMatch raw.data = some (kd, vd) → classify raw = .entry ⟨kd⟩ ⟨vd⟩) ∧
    (∀ raw, blankOrComment raw = false → sectionMatch raw.data = none →
      keyvalMatch raw.data = none → classify raw = .bad) := by
  refine ⟨fun pre post n sec => lineRecsFrom_append pre post n sec,
    fun pre post n sec st => parseLoop_append oracle s pre post n sec st,
    ?_, ?_, ?_, ?_⟩
  · intro raw h
    unfold classify
    rw [if_pos h]
  · intro raw t hbc hsec
    unfold classify
    rw [if_neg (by simp [hbc]), hsec]
  · intro raw kd vd hbc hsec hkv
    unfold classify
    rw [if_neg (by simp [hbc]), hsec, hkv]
  · intro raw hbc hsec hkv
    unfold classify
    rw [if_neg (by simp [hbc]), hsec, hkv]

/-- Witness for C4 at concrete lines: `[a=b]` is both section- and
keyval-shaped, and the section check wins; a parse-error line before a
valid line leaves the later line parsed (the record split at the error
line). -/
theorem C4_parser_order_and_isolation_witness :
    classify ("[a=b]") = .sect ⟨pyStrip (("a=b").data)⟩ ∧
    classify ("a = b") = .entry ⟨pyStrip (("a ").data)⟩ ⟨pyStrip ((" b").data)⟩ ∧
    lineRecsFrom 1 none ([("not a valid line")] ++ [("a = b")]) =
      ((lineRecsFrom 1 none [("not a valid line")]).1 ++
        (lineRecsFrom 2 (sectAt none [("not a valid line")])
          [("a = b")]).1,
      (lineRecsFrom 1 none [("not a valid line")]).2 ++
        (lineRecsFrom 2 (sectAt none [("not a valid line")])
          [("a = b")]).2) := by
  refine ⟨?_, ?_, ?_⟩
  · exact (C4_parser_order_and_isolation (fun _ => none) ⟨[], []⟩).2.2.2.1
      ("[a=b]") (("a=b").data) (by decide) (by decide)
  · exact (C4_parser_order_and_isolation (fun _ => none) ⟨[], []⟩).2.2.2.2.1
      ("a = b") (pyStrip (("a ").data)) (pyStrip ((" b").data))
      (by decide) (by decide) (by decide)
  · exact (C4_parser_order_and_isolation (fun _ => none) ⟨[], []⟩).1
      [("not a valid line")] [("a = b")] 1 none

/-!
## Claim C10: at most one unknown-rule warning per rule
-/

theorem pyUpperStr_idem (x : String) : pyUpperStr (pyUpperStr x) = pyUpperStr x := by
  unfold pyUpperStr
  apply String.ext
  show (x.data.map Char.toUpper).map Char.toUpper = x.data.map Char.toUpper
  rw [List.map_map]
  exact List.map_congr_left fun c _ => toUpper_toUpper c

theorem nodup_used_parseLoop {oracle : RegexOracle} {s : Schema} :
    ∀ {lines : List String} {n : Nat} {sec : Option String} {st : VState},
      st.used.Nodup → (parseLoop oracle s n sec st lines).used.Nodup := by
  intro lines
  induction lines with
  | nil => intro n sec st h; exact h
  | cons raw rest ih =>
    intro n sec st h
    rw [parseLoop]
    cases hcl : classify raw with
    | skip => exact ih h
    | sect t => exact ih h
    | entry k v =>
      apply ih
      rw [used_validate_key_value]
      cases diagSevMatch k with
      | none => exact h
      | some rid => exact nodup_insertSet h
    | bad => exact ih h

theorem warnings_validate_key_value (oracle : RegexOracle) (s : Schema)
    (key val : String) (n : Nat) (st : VState) :
    (validate_key_value oracle s key val n st).warnings =
      match diagSevMatch key with
      | some _ => st.warnings
      | none =>
        if containsSub (pyLowerStr key).data (("dotnet").data) &&
            containsSub (pyLowerStr key).data (("severity").data) &&
            !namingRuleIsMatch key then
          st.warnings ++ [(n, malformedKeyMsg key)]
        else st.warnings := by
  rcases hm : diagSevMatch key with - | rid
  · simp only [validate_key_value, hm]
    split <;> rfl
  · simp only [validate_key_value, hm]
    split <;> rfl

theorem mem_warnings_validate_key_value {oracle : RegexOracle} {s : Schema}
    {key val : String} {n : Nat} {st : VState} {w : Nat × String}
    (h : w ∈ (validate_key_value oracle s key val n st).warnings) :
    w ∈ st.warnings ∨ w.2 = malformedKeyMsg key := by
  rw [warnings_validate_key_value] at h
  rcases hm : diagSevMatch key with - | rid
  · simp only [hm] at h
    split at h
    · rcases List.mem_append.mp h with hl | hr
      · exact Or.inl hl
      · simp only [List.mem_singleton] at hr
        rw [hr]
        exact Or.inr rfl
    · exact Or.inl h
  · simp only [hm] at h
    exact Or.inl h

theorem mem_warnings_parseLoop {oracle : RegexOracle} {s : Schema} :
    ∀ {lines : List String} {n : Nat} {sec : Option String} {st : VState}
      {w : Nat × String}, w ∈ (parseLoop oracle s n sec st lines).warnings →
      w ∈ st.warnings ∨ ∃ k, w.2 = malformedKeyMsg k := by
  intro lines
  induction lines with
  | nil => intro n sec st w h; exact Or.inl h
  | cons raw rest ih =>
    intro n sec st w h
    rw [parseLoop] at h
    cases hcl : classify raw with
    | skip =>
      rw [hcl] at h
      dsimp only at h
      exact ih h
    | sect t =>
      rw [hcl] at h
      dsimp only at h
      exact ih h
    | entry k v =>
      rw [hcl] at h
      dsimp only at h
      rcases ih h with hst | hmal
      · rcases mem_warnings_validate_key_value hst with h1 | h2
        · exact Or.inl h1
        · exact Or.inr ⟨k, h2⟩
      · exact hmal.elim fun k2 hk2 => Or.inr ⟨k2, hk2⟩
    | bad =>
      rw [hcl] at h
      dsimp only at h
      rcases ih h with h1 | h2
      · exact Or.inl h1
      · exact Or.inr h2

theorem malformedKeyMsg_ne_unknownRuleMsg (k r : String) :
    malformedKeyMsg k ≠ unknownRuleMsg r := by
  intro h
  have h2 := congrArg String.data h
  simp only [malformedKeyMsg, unknownRuleMsg, String.data_append] at h2
  simp only [List.cons_append, List.cons.injEq] at h2
  exact absurd h2.1 (by decide)

theorem unknownRuleMsg_inj {a b : String}
    (h : unknownRuleMsg a = unknownRuleMsg b) : a = b := by
  have h2 := congrArg String.data h
  simp only [unknownRuleMsg, String.data_append] at h2
  have h3 := List.append_inj' h2 rfl
  have h4 := List.append_cancel_left h3.1
  exact String.ext h4

theorem checkRuleOpt_some {known lines : List String} {x : String}
    {w : Nat × String} (h : checkRuleOpt known lines x = some w) :
    known.contains x = false ∧ w.2 = unknownRuleMsg x ∧
      find_line_for_text (sevKeyText x) lines = some w.1 := by
  unfold checkRuleOpt at h
  split at h
  · exact absurd h (by simp)
  · next hc =>
    cases hf : find_line_for_text (sevKeyText x) lines with
    | none =>
      rw [hf] at h
      exact absurd h (by simp)
    | some m =>
      rw [hf] at h
      simp only [Option.map_some', Option.some.injEq] at h
      refine ⟨by simpa using hc, ?_, ?_⟩
      · rw [← h]
      · rw [← h]

theorem filter_checkOpt_not_mem {known lines : List String} {r : String} :
    ∀ {l : List String}, r ∉ l →
      (l.filterMap (checkRuleOpt known lines)).filter
        (fun w => w.2 == unknownRuleMsg r) = [] := by
  intro l
  induction l with
  | nil => intro _; rfl
  | cons x t ih =>
    intro hr
    rw [List.filterMap_cons]
    cases hg : checkRuleOpt known lines x with
    | none => exact ih fun hmem => hr (List.mem_cons_of_mem _ hmem)
    | some w =>
      rw [List.filter_cons]
      have hw : w.2 = unknownRuleMsg x := (checkRuleOpt_some hg).2.1
      have hne : x ≠ r := fun hx => hr (hx ▸ List.mem_cons_self _ _)
      have hbeq : (w.2 == unknownRuleMsg r) = false := by
        rw [hw]
        simp only [beq_eq_false_iff_ne, ne_eq]
        intro hmm
        exact hne (unknownRuleMsg_inj hmm)
      rw [hbeq]
      simp only [Bool.false_eq_true, if_false]
      exact ih fun hmem => hr (List.mem_cons_of_mem _ hmem)

theorem count_le_one_checkOpt {known lines : List String} {r : String} :
    ∀ {l : List String}, l.Nodup →
      ((l.filterMap (checkRuleOpt known lines)).filter
        (fun w => w.2 == unknownRuleMsg r)).length ≤ 1 := by
  intro l
  induction l with
  | nil => intro _; simp
  | cons x t ih =>
    intro hnd
    have hx : x ∉ t := (List.nodup_cons.mp hnd).1
    have ht : t.Nodup := (List.nodup_cons.mp hnd).2
    rw [List.filterMap_cons]
    cases hg : checkRuleOpt known lines x with
    | none => exact ih ht
    | some w =>
      rw [List.filter_cons]
      by_cases hbeq : (w.2 == unknownRuleMsg r) = true
      · have hw : w.2 = unknownRuleMsg x := (checkRuleOpt_some hg).2.1
        have hxr : x = r := by
          apply unknownRuleMsg_inj
          rw [← hw]
          exact eq_of_beq hbeq
        rw [hbeq]
        simp only [if_true]
        rw [filter_checkOpt_not_mem (hxr ▸ hx)]
        simp
      · rw [Bool.not_eq_true] at hbeq
        rw [hbeq]
        simp only [Bool.false_eq_true, if_false]
        exact ih ht

/-- Claim C10: the used-rule set is duplicate-free and uppercased, and per
run each distinct rule identifier yields at most one unknown-rule warning,
attached to the first line whose text contains the rule's severity key —
no matter how many lines of the file reference the rule. -/
theorem C10_one_warning_per_rule (oracle : RegexOracle) (s : Schema)
    (lines : List String) (outcomes : List (String × FetchOutcome)) :
    (parse_and_validate oracle s lines).used.Nodup ∧
    (∀ r ∈ (parse_and_validate oracle s lines).used, pyUpperStr r = r) ∧
    (∀ r, ((pipelineState oracle s lines outcomes).1.warnings.filter
      (fun w => w.2 == unknownRuleMsg r)).length ≤ 1) ∧
    (∀ r n,
      (n, unknownRuleMsg r) ∈ (pipelineState oracle s lines outcomes).1.warnings →
      find_line_for_text (sevKeyText r) lines = some n) := by
  have hpwne : ∀ r, ∀ w ∈ (parse_and_validate oracle s lines).warnings,
      ¬(w.2 == unknownRuleMsg r) = true := by
    intro r w hw
    rcases mem_warnings_parseLoop hw with h0 | ⟨k, hk⟩
    · exact absurd h0 (List.not_mem_nil w)
    · rw [hk]
      simp only [beq_iff_eq]
      exact malformedKeyMsg_ne_unknownRuleMsg k r
  have hpwfilter : ∀ r, (parse_and_validate oracle s lines).warnings.filter
      (fun w => w.2 == unknownRuleMsg r) = [] :=
    fun r => List.filter_eq_nil_iff.mpr (hpwne r)
  refine ⟨nodup_used_parseLoop List.nodup_nil, ?_, ?_, ?_⟩
  · intro r hr
    rcases mem_used_parseLoop hr with h0 | ⟨raw, -, k, v, rid, -, -, hrid⟩
    · exact absurd h0 (List.not_mem_nil r)
    · rw [hrid]
      exact pyUpperStr_idem rid
  · intro r
    unfold pipelineState
    cases hused : (parse_and_validate oracle s lines).used.isEmpty with
    | true =>
      simp only [hused, if_true]
      rw [hpwfilter r]
      simp
    | false =>
      simp only [hused, Bool.false_eq_true, if_false]
      rw [List.filter_append, List.length_append, hpwfilter r]
      simp only [List.length_nil, Nat.zero_add]
      cases hk : (fetch_known_analyzer_ids outcomes).isEmpty with
      | true =>
        rw [List.isEmpty_iff.mp hk]
        rw [show (check_analyzer_ids (parse_and_validate oracle s lines).used
          ([] : List String) lines).2 = [] from rfl]
        simp
      | false =>
        rw [check_snd_eq_filterMap hk]
        exact count_le_one_checkOpt
          ((List.perm_insertionSort (· ≤ ·)
            (parse_and_validate oracle s lines).used).nodup_iff.mpr
            (nodup_used_parseLoop List.nodup_nil))
  · intro r n hmem
    revert hmem
    unfold pipelineState
    cases hused : (parse_and_validate oracle s lines).used.isEmpty with
    | true =>
      simp only [hused, if_true]
      intro hmem
      exact absurd (by simp : ((n, unknownRuleMsg r).2 == unknownRuleMsg r) = true)
        (hpwne r _ hmem)
    | false =>
      simp only [hused, Bool.false_eq_true, if_false]
      intro hmem
      rcases List.mem_append.mp hmem with hl | hrt
      · exact absurd (by simp : ((n, unknownRuleMsg r).2 == unknownRuleMsg r) = true)
          (hpwne r _ hl)
      · revert hrt
        cases hk : (fetch_known_analyzer_ids outcomes).isEmpty with
        | true =>
          rw [List.isEmpty_iff.mp hk]
          rw [show (check_analyzer_ids (parse_and_validate oracle s lines).used
            ([] : List String) lines).2 = [] from rfl]
          intro hrt
          exact absurd hrt (List.not_mem_nil _)
        | false =>
          rw [check_snd_eq_filterMap hk]
          intro hrt
          obtain ⟨x, -, hgx⟩ := List.mem_filterMap.mp hrt
          obtain ⟨-, hmsg, hfind⟩ := checkRuleOpt_some hgx
          have hxr : x = r := unknownRuleMsg_inj (by simpa using hmsg.symm)
          rw [hxr] at hfind
          simpa using hfind

/-- Witness for C10 at a concrete run: a file referencing `ca9999` on two
lines yields a single unknown-rule warning, and its attachment point is the
first line containing the severity key, line 2. -/
theorem C10_one_warning_per_rule_witness :
    find_line_for_text (sevKeyText ("CA9999"))
      [("[*.cs]"), ("dotnet_diagnostic.ca9999.severity = warning"),
        ("dotnet_diagnostic.CA9999.severity = error")] = some 2 := by
  exact (C10_one_warning_per_rule (fun _ => none) ⟨[], []⟩
    [("[*.cs]"), ("dotnet_diagnostic.ca9999.severity = warning"),
      ("dotnet_diagnostic.CA9999.severity = error")]
    [(("u"), .ok 200 ("CA1000 CS0168"))]).2.2.2 ("CA9999") 2 (by decide)
